import Mathlib

/-!
Shallow embedding of the scheduled-payment engine of walletbot.py.

Time is modelled in minutes since the proleptic Gregorian epoch: day 0 of
the time scale is 0001-01-01 (a Monday), and a timestamp t denotes minute
t % 1440 of day t / 1440.  Python datetime objects become such minute
counts, timedelta(days = n) becomes n * 1440, and the croniter rule
"0 12 * * w" becomes the function cronNext below.
-/

namespace WalletBot

/-- Leap-year rule of the proleptic Gregorian calendar, as used by Python datetime. -/
def isLeapYear (y : Nat) : Bool :=
  y % 4 == 0 && (y % 100 != 0 || y % 400 == 0)

/-- Number of days in month m of year y, months numbered 1..12. -/
def daysInMonth (y m : Nat) : Nat :=
  if m = 2 then (if isLeapYear y then 29 else 28)
  else if m = 4 ∨ m = 6 ∨ m = 9 ∨ m = 11 then 30
  else 31

/-- Days in all years strictly before year y (rata die offset), Python style. -/
def daysBeforeYear (y : Nat) : Nat :=
  let n := y - 1
  n * 365 + n / 4 - n / 100 + n / 400

/-- Days in the months of year y strictly before month m. -/
def daysBeforeMonth (y m : Nat) : Nat :=
  ((List.range (m - 1)).map (fun k => daysInMonth y (k + 1))).sum

/-- Rata die day number of the date y-m-d; 0001-01-01 is day 1. -/
def rataDie (y m d : Nat) : Nat :=
  daysBeforeYear y + daysBeforeMonth y m + d

/-- Minute timestamp of noon on the date y-m-d. -/
def noonMinutes (y m d : Nat) : Nat :=
  (rataDie y m d - 1) * 1440 + 720

/-- Calendar validity exactly as the Python datetime constructor checks it. -/
def dateValid (y m d : Nat) : Bool :=
  decide (1 ≤ y ∧ y ≤ 9999 ∧ 1 ≤ m ∧ m ≤ 12 ∧ 1 ≤ d ∧ d ≤ daysInMonth y m)

/-- Calendar year containing minute timestamp t. -/
def yearOf (t : Nat) : Nat :=
  let d := t / 1440 + 1
  let y0 := (400 * d) / 146097 + 1
  if d ≤ daysBeforeYear y0 then y0 - 1
  else if daysBeforeYear (y0 + 1) < d then y0 + 1
  else y0

/-- Cron weekday (0 = Sunday) of day number d; day 0 is a Monday. -/
def cronWeekdayOfDay (d : Nat) : Nat := (d + 1) % 7

/-- Semantics of croniter get_next on the rule "0 12 * * w": the earliest
minute strictly after t whose time-of-day is 12:00 and whose cron weekday
equals w. -/
def cronNext (w t : Nat) : Nat :=
  let d := t / 1440
  if cronWeekdayOfDay d = w ∧ t % 1440 < 720 then d * 1440 + 720
  else
    let k := (w + 7 - cronWeekdayOfDay (d + 1)) % 7
    (d + 1 + k) * 1440 + 720

/-- Whitespace characters for Python str.strip and the regex class backslash-s. -/
def isSpaceCh (c : Char) : Bool :=
  c == ' ' || c == '\t' || c == '\n' || c == '\r' || c == '\x0b' || c == '\x0c'

/-- Python str.strip on a character list. -/
def trimChars (l : List Char) : List Char :=
  ((l.dropWhile isSpaceCh).reverse.dropWhile isSpaceCh).reverse

def isPrefixCh : List Char → List Char → Bool
  | [], _ => true
  | _ :: _, [] => false
  | a :: as, b :: bs => a == b && isPrefixCh as bs

/-- Python substring containment (the `in` operator on str). -/
def containsSub (pat : List Char) : List Char → Bool
  | [] => pat.isEmpty
  | c :: rest => isPrefixCh pat (c :: rest) || containsSub pat rest

def weekdayNames : List String :=
  ["monday", "tuesday", "wednesday", "thursday", "friday", "saturday", "sunday"]

/-- First weekday name i with "every <day>" contained in the input, giving the
cron weekday (i + 1) % 7, as in parse_schedule_string. -/
def findWeekly (l : List Char) : Option Nat :=
  (List.range 7).findSome? (fun i =>
    if containsSub (("every " ++ weekdayNames.getD i "").toList) l then some ((i + 1) % 7)
    else none)

def dropLit : List Char → List Char → Option (List Char)
  | [], l => some l
  | _ :: _, [] => none
  | a :: as, b :: bs => if a = b then dropLit as bs else none

def digitsVal (l : List Char) : Nat :=
  l.foldl (fun a c => a * 10 + (c.toNat - 48)) 0

/-- Match the regex every-space-digits-space-day at the head of the list. -/
def matchEveryDaysAt (l : List Char) : Option Nat :=
  match dropLit "every".toList l with
  | none => none
  | some l1 =>
    match l1 with
    | [] => none
    | c :: _ =>
      if isSpaceCh c then
        let l2 := l1.dropWhile isSpaceCh
        let ds := l2.takeWhile Char.isDigit
        if ds.isEmpty then none
        else
          let l3 := l2.dropWhile Char.isDigit
          match l3 with
          | [] => none
          | c2 :: _ =>
            if isSpaceCh c2 then
              let l4 := l3.dropWhile isSpaceCh
              if (dropLit "day".toList l4).isSome then some (digitsVal ds) else none
            else none
      else none

/-- Leftmost match of the every-N-days pattern, as re.search finds it. -/
def findEveryDays : List Char → Option Nat
  | [] => none
  | c :: rest =>
    match matchEveryDaysAt (c :: rest) with
    | some d => some d
    | none => findEveryDays rest

def isSepCh (c : Char) : Bool := c == '-' || c == '/'

/-- Candidate splits for a 1-or-2-digit group, in greedy (regex backtracking) order. -/
def takeDigits12 (l : List Char) : List (List Char × List Char) :=
  match l with
  | a :: b :: r =>
    if a.isDigit then
      (if b.isDigit then [([a, b], r), ([a], b :: r)] else [([a], b :: r)])
    else []
  | [a] => if a.isDigit then [([a], [])] else []
  | [] => []

/-- Greedy 2-to-4-digit group for the year. -/
def takeDigits24 (l : List Char) : Option (List Char) :=
  let ds := l.takeWhile Char.isDigit
  if 4 ≤ ds.length then some (ds.take 4)
  else if 2 ≤ ds.length then some ds
  else none

/-- Match the date regex digits-sep-digits-sep-year at the head of the list. -/
def matchDateAt (l : List Char) : Option (Nat × Nat × Nat) :=
  (takeDigits12 l).findSome? (fun p =>
    match p.2 with
    | s1 :: r1 =>
      if isSepCh s1 then
        (takeDigits12 r1).findSome? (fun q =>
          match q.2 with
          | s2 :: r2 =>
            if isSepCh s2 then
              match takeDigits24 r2 with
              | some ys => some (digitsVal p.1, digitsVal q.1, digitsVal ys)
              | none => none
            else none
          | [] => none)
      else none
    | [] => none)

/-- Leftmost match of the date pattern, as re.search finds it. -/
def findDate : List Char → Option (Nat × Nat × Nat)
  | [] => none
  | c :: rest =>
    match matchDateAt (c :: rest) with
    | some r => some r
    | none => findDate rest

/-- Result of parse_schedule_string: a cron-style weekly rule, a periodic
rule (carrying the computed next date and the interval in days), or a
one-time rule at noon on a specific date. -/
inductive ParseResult where
  | weekly (cronWeekday : Nat)
  | periodic (nextDate : Nat) (days : Nat)
  | oneTime (timestamp : Nat)
deriving DecidableEq

/-- Body of parse_schedule_string over a character list.  The ambient calls
to datetime.now() in the source are the explicit parameter now. -/
def parseChars (l0 : List Char) (now : Nat) : Option ParseResult :=
  let l := trimChars (l0.map Char.toLower)
  match findWeekly l with
  | some w => some (.weekly w)
  | none =>
    match findEveryDays l with
    | some d => some (.periodic (now + d * 1440) d)
    | none =>
      match findDate l with
      | some (d, m, y) =>
        let y2 := if y < 100 then (yearOf now / 100) * 100 + y else y
        if dateValid y2 m d then some (.oneTime (noonMinutes y2 m d)) else none
      | none => none

/-- parse_schedule_string from walletbot.py. -/
def parse_schedule_string (s : String) (now : Nat) : Option ParseResult :=
  parseChars s.toList now

/-- Normalized schedule as stored on a payment record: schedule_type plus
schedule_value. -/
inductive Schedule where
  | weekly (cronWeekday : Nat)
  | periodic (days : Nat)
  | oneTime (timestamp : Nat)
deriving DecidableEq

/-- Schedule stored by schedule_payment: the periodic case keeps only the
interval (extra[0] in the source), dropping the parse-time next date. -/
def scheduleOfParse : ParseResult → Schedule
  | .weekly w => .weekly w
  | .periodic _ d => .periodic d
  | .oneTime ts => .oneTime ts

/-- calculate_next_execution from walletbot.py, with the ambient
datetime.now() as the explicit reference time. -/
def calculate_next_execution (sched : Schedule) (now : Nat) : Nat :=
  match sched with
  | .weekly w => cronNext w now
  | .periodic d => now + d * 1440
  | .oneTime ts => ts

/-- Fee quote returned by calculate_optimal_gas: a legacy flat gas price or
an EIP-1559 pair, each with a gas limit. -/
inductive GasParams where
  | legacy (gasPrice : Nat) (gasLimit : Nat)
  | eip1559 (maxFeePerGas : Nat) (maxPriorityFeePerGas : Nat) (gasLimit : Nat)
deriving DecidableEq

/-- Per-transaction fee estimate as computed at the call sites: gas price
times gas limit for legacy quotes, maxFeePerGas times gas limit for dynamic
quotes. -/
def feeEstimate : GasParams → Nat
  | .legacy p l => p * l
  | .eip1559 mf _ l => mf * l

/-- Shortfall error produced by the balance pre-flight, carrying the stated
required total and available balance (both in wei). -/
structure ShortfallMsg where
  required : Nat
  available : Nat
deriving DecidableEq

/-- Aggregate balance pre-flight of batch_payment and batch_payment_multi:
total cost is the sum of the amounts plus the fee estimate times the number
of recipients; the request is rejected when the balance is strictly below
that total. -/
def batch_balance_guard (balanceWei : Nat) (amountsWei : List Nat) (gas : GasParams) :
    Except ShortfallMsg Unit :=
  let totalAmountWei := amountsWei.sum
  let totalGasWei := feeEstimate gas * amountsWei.length
  let totalCostWei := totalAmountWei + totalGasWei
  if balanceWei < totalCostWei then .error ⟨totalCostWei, balanceWei⟩ else .ok ()

/-- Balance pre-flight of the single-payment command pay. -/
def pay_balance_guard (balanceWei amountWei : Nat) (gas : GasParams) :
    Except ShortfallMsg Unit :=
  if balanceWei < amountWei + feeEstimate gas then
    .error ⟨amountWei + feeEstimate gas, balanceWei⟩
  else .ok ()

/-- A wallet document: address plus private key material. -/
structure Wallet where
  address : String
  privateKey : String
deriving DecidableEq

/-- A pending notification document as stored in the per-recipient outbox. -/
structure PendingNotification where
  id : String
  ntype : String
  amountWei : Nat
  senderUsername : String
  txHash : Option String
  newWallet : Bool
  walletAddress : Option String
  privateKey : Option String
deriving DecidableEq

/-- A processed batch recipient as built by batch_payment and
batch_payment_multi before confirmation. -/
structure Recipient where
  address : String
  display : String
  amountWei : Nat
  isNewWallet : Bool
  privateKey : Option String
deriving DecidableEq

/-- Recipient entry built by batch_payment_multi for a username recipient.
When no wallet is known a fresh key pair is generated, but the source dict
carries no private_key field, so the model stores none. -/
def batch_payment_multi_recipient (lookup : Option Wallet) (freshKey freshAddr : String)
    (username : String) (amountWei : Nat) : Recipient :=
  match lookup with
  | none =>
    { address := freshAddr, display := "@" ++ username, amountWei := amountWei,
      isNewWallet := true, privateKey := none }
  | some w =>
    { address := w.address, display := "@" ++ username, amountWei := amountWei,
      isNewWallet := false, privateKey := none }

/-- Recipient entry built by batch_payment (same-amount path): here the
fresh private key is stored on the entry for new wallets. -/
def batch_payment_recipient (lookup : Option Wallet) (freshKey freshAddr : String)
    (username : String) (amountWei : Nat) : Recipient :=
  match lookup with
  | none =>
    { address := freshAddr, display := "@" ++ username, amountWei := amountWei,
      isNewWallet := true, privateKey := some freshKey }
  | some w =>
    { address := w.address, display := "@" ++ username, amountWei := amountWei,
      isNewWallet := false, privateKey := none }

/-- Notification prepared by pay for a username recipient with no known
wallet: the fresh address and private key ride on the notification payload. -/
def pay_new_wallet_notification (nid : String) (amountWei : Nat)
    (senderUsername freshAddr freshKey : String) : PendingNotification :=
  { id := nid, ntype := "received_eth", amountWei := amountWei,
    senderUsername := senderUsername, txHash := none, newWallet := true,
    walletAddress := some freshAddr, privateKey := some freshKey }

/-- Scheduled-payment record as stored by schedule_payment and read by the
scheduler tick. -/
structure PaymentRecord where
  id : Nat
  senderId : String
  senderAddress : String
  recipientAddress : String
  recipientDisplay : String
  amountWei : Nat
  schedule : Schedule
  nextExecution : Nat
  active : Bool
  createdAt : Nat
  isNewWallet : Bool
  privateKey : Option String
deriving DecidableEq

/-- Record built by schedule_payment: the private key of an auto-provisioned
recipient wallet is attached to the record itself. -/
def schedule_payment_record (pid : Nat) (senderId fromAddr recipAddr display : String)
    (amountWei : Nat) (sched : Schedule) (nextExec createdAt : Nat)
    (isNew : Bool) (newKey : Option String) : PaymentRecord :=
  { id := pid, senderId := senderId, senderAddress := fromAddr,
    recipientAddress := recipAddr, recipientDisplay := display,
    amountWei := amountWei, schedule := sched, nextExecution := nextExec,
    active := true, createdAt := createdAt, isNewWallet := isNew,
    privateKey := if isNew then newKey else none }

/-- External world seen by process_batch_transaction.  Network calls are
indexed by the 1-based loop iteration: countAt i is the result of the
get_transaction_count call made during iteration i, gasAt i the fee quote,
submitAt i the outcome of signing and submitting, notifId i the fresh
notification id. -/
structure BatchEnv where
  senderUsername : String
  countAt : Nat → Except String Nat
  gasAt : Nat → GasParams
  submitAt : Nat → Except String String
  notifId : Nat → String

/-- Value-transfer transaction actually submitted for one batch recipient. -/
structure SentTx where
  nonce : Nat
  toAddress : String
  valueWei : Nat
  gas : GasParams
  txHash : String
deriving DecidableEq

inductive BatchItemStatus where
  | success (txHash : String) (isNewWallet : Bool) (recipientAddress : String)
  | failed (err : String)
deriving DecidableEq

/-- Per-recipient outcome appended to the results list. -/
structure BatchResult where
  recipientDisplay : String
  amountWei : Nat
  status : BatchItemStatus
deriving DecidableEq

def isSuccessStatus : BatchItemStatus → Bool
  | .success _ _ _ => true
  | .failed _ => false

/-- Count of successful entries, as the source computes it. -/
def successCount (rs : List BatchResult) : Nat :=
  (rs.filter (fun r => isSuccessStatus r.status)).length

/-- Failed count as the source computes it: total minus successes. -/
def failedCount (rs : List BatchResult) : Nat :=
  rs.length - successCount rs

def exOk {e a : Type} : Except e a → Bool
  | .ok _ => true
  | .error _ => false

def startsWithAtSign (s : String) : Bool :=
  match s.toList with
  | '@' :: _ => true
  | _ => false

/-- Python lstrip of the at sign. -/
def stripAtSign (s : String) : String :=
  String.mk (s.toList.dropWhile (fun c => c == '@'))

/-- Everything process_batch_transaction produces for one loop iteration i:
the per-recipient result, the submitted transaction when the sends succeed,
and the pending notification saved for username recipients.  The nonce is
computed from the transaction count queried in this same iteration, plus
i - 1, exactly as in the source. -/
def batchIter (env : BatchEnv) (i : Nat) (r : Recipient) :
    BatchResult × Option SentTx × Option (String × PendingNotification) :=
  match env.countAt i with
  | .error e => (⟨r.display, r.amountWei, .failed e⟩, none, none)
  | .ok cnt =>
    match env.submitAt i with
    | .error e => (⟨r.display, r.amountWei, .failed e⟩, none, none)
    | .ok h =>
      let nonce := cnt + i - 1
      let tx : SentTx := ⟨nonce, r.address, r.amountWei, env.gasAt i, h⟩
      let res : BatchResult := ⟨r.display, r.amountWei, .success h r.isNewWallet r.address⟩
      let pn :=
        if startsWithAtSign r.display then
          some (stripAtSign r.display,
            ({ id := env.notifId i, ntype := "received_eth", amountWei := r.amountWei,
               senderUsername := env.senderUsername, txHash := some h,
               newWallet := r.isNewWallet,
               walletAddress :=
                 if r.isNewWallet && r.privateKey.isSome then some r.address else none,
               privateKey :=
                 if r.isNewWallet && r.privateKey.isSome then r.privateKey else none } :
              PendingNotification))
        else none
      (res, some tx, pn)

/-- Aggregate outcome of a confirmed batch: per-recipient results in order,
submitted transactions, saved notifications, and the number of
get_transaction_count queries issued. -/
structure BatchOutcome where
  results : List BatchResult
  txs : List SentTx
  notifs : List (String × PendingNotification)
  countQueries : Nat
deriving DecidableEq

/-- Loop of process_batch_transaction, iterations numbered from i. -/
def runBatch (env : BatchEnv) (i : Nat) : List Recipient → BatchOutcome
  | [] => ⟨[], [], [], 0⟩
  | r :: rest =>
    let step := batchIter env i r
    let o := runBatch env (i + 1) rest
    ⟨step.1 :: o.results, step.2.1.toList ++ o.txs, step.2.2.toList ++ o.notifs,
     o.countQueries + 1⟩

/-- process_batch_transaction from walletbot.py: the confirmed batch loop,
iterations numbered from 1 as by enumerate(recipients, 1). -/
def process_batch_transaction (env : BatchEnv) (recipients : List Recipient) : BatchOutcome :=
  runBatch env 1 recipients

/-- Full batch request flow: the aggregate balance pre-flight of
batch_payment runs first; only an accepted request reaches the confirmed
batch loop, so a rejected request issues no transaction. -/
def batch_payment_flow (env : BatchEnv) (balanceWei : Nat) (gas : GasParams)
    (recipients : List Recipient) : Except ShortfallMsg BatchOutcome :=
  match batch_balance_guard balanceWei (recipients.map (fun r => r.amountWei)) gas with
  | .error e => .error e
  | .ok _ => .ok (process_batch_transaction env recipients)

/-- Full single-payment flow: the pre-flight of pay runs first, and only an
accepted request reaches confirm_payment, which submits one transaction. -/
def pay_flow (balanceWei amountWei : Nat) (gas : GasParams)
    (submit : Unit → Except String String) : Except ShortfallMsg (Except String String) :=
  match pay_balance_guard balanceWei amountWei gas with
  | .error e => .error e
  | .ok _ => .ok (submit ())

/-- External world seen by one scheduler tick: the clock, the wallet store,
the balance and fee oracles, and the submission outcome per record id. -/
structure TickEnv where
  now : Nat
  wallets : String → Option Wallet
  balance : String → Nat
  gas : GasParams
  submit : Nat → Except String String

/-- get_all_due_scheduled_payments: records with next_execution at or before
now and active set. -/
def get_all_due_scheduled_payments (store : List PaymentRecord) (now : Nat) :
    List PaymentRecord :=
  store.filter (fun r => decide (r.nextExecution ≤ now) && r.active)

/-- Outcome of one dispatch attempt in the tick: none when the sender wallet
is missing, the pre-flight rejects, or submission raises; some hash on
success.  Each of the none cases makes the source loop continue without any
store write for the record. -/
def dispatchResult (env : TickEnv) (r : PaymentRecord) : Option String :=
  match env.wallets r.senderId with
  | none => none
  | some w =>
    if env.balance w.address < r.amountWei + feeEstimate env.gas then none
    else
      match env.submit r.id with
      | .error _ => none
      | .ok h => some h

/-- Store write performed after a successful dispatch: one-time records are
deactivated; weekly records get the next cron occurrence after now; periodic
records get now plus the interval in days. -/
def rescheduleRecord (now : Nat) (sched : Schedule) (x : PaymentRecord) : PaymentRecord :=
  match sched with
  | .oneTime _ => { x with active := false }
  | .weekly w => { x with nextExecution := cronNext w now }
  | .periodic d => { x with nextExecution := now + d * 1440 }

/-- update_scheduled_payment applied pointwise: only the record with the
dispatched id changes. -/
def applyUpdate (now : Nat) (r x : PaymentRecord) : PaymentRecord :=
  if x.id = r.id then rescheduleRecord now r.schedule x else x

/-- One step of the tick loop: a failed dispatch leaves store and
transaction log untouched; a successful one rewrites the record and logs
the submitted transaction. -/
def tickStep (env : TickEnv) (acc : List PaymentRecord × List (Nat × String))
    (r : PaymentRecord) : List PaymentRecord × List (Nat × String) :=
  match dispatchResult env r with
  | none => acc
  | some h => (acc.1.map (applyUpdate env.now r), acc.2 ++ [(r.id, h)])

/-- process_scheduled_payments from walletbot.py: fetch the due records
once, then dispatch them sequentially, threading the store.  Returns the
final store and the list of submitted transactions (record id, hash). -/
def process_scheduled_payments (env : TickEnv) (store : List PaymentRecord) :
    List PaymentRecord × List (Nat × String) :=
  (get_all_due_scheduled_payments store env.now).foldl (tickStep env) (store, [])

/-- Effect of the whole tick loop on a single stored record. -/
def schedStep (env : TickEnv) (x r : PaymentRecord) : PaymentRecord :=
  match dispatchResult env r with
  | none => x
  | some _ => applyUpdate env.now r x

def schedG (env : TickEnv) (l : List PaymentRecord) (x : PaymentRecord) : PaymentRecord :=
  l.foldl (schedStep env) x

/-- remove_pending_notification: the Mongo pull removes every entry whose id
matches. -/
def remove_pending_notification (outbox : List PendingNotification) (nid : String) :
    List PendingNotification :=
  outbox.filter (fun m => m.id != nid)

/-- One iteration of the notification drain: the entry is removed only when
it is a received_eth event and the delivery hand-off succeeded. -/
def outboxStep (deliverOk : String → Bool) (cur : List PendingNotification)
    (n : PendingNotification) : List PendingNotification :=
  if n.ntype == "received_eth" && deliverOk n.id then
    remove_pending_notification cur n.id
  else cur

/-- check_pending_notifications restricted to the outbox effect: iterate the
fetched notifications; for the received_eth ones attempt delivery and remove
the entry only after the hand-off succeeded; a failed hand-off (and any
entry of another type) leaves the entry in place. -/
def check_pending_notifications (deliverOk : String → Bool)
    (outbox : List PendingNotification) : List PendingNotification :=
  outbox.foldl (outboxStep deliverOk) outbox

/-- Next-execution value a successful dispatch writes back, none when the
record is deactivated instead. -/
def nextExecAfter (now : Nat) : Schedule → Option Nat
  | .oneTime _ => none
  | .weekly w => some (cronNext w now)
  | .periodic d => some (now + d * 1440)

/-- Reference time used in concrete evaluations: noon on 2026-10-12. -/
def tRef : Nat := noonMinutes 2026 10 12

/-- A past one-time timestamp: noon on 2020-12-25. -/
def tsDec2020 : Nat := noonMinutes 2020 12 25

def envC1 : BatchEnv :=
  { senderUsername := "bob", countAt := fun _ => .ok 5,
    gasAt := fun _ => .legacy 7 21000, submitAt := fun _ => .ok "0xhash1",
    notifId := fun _ => "n1" }

/-- The failing input of the multi-amount batch path: a username recipient
with no known wallet, for whom a fresh key pair was generated. -/
def recipC1 : Recipient :=
  batch_payment_multi_recipient none "0xfreshkey" "0xFRESH" "carol" 5000

def envC4 : BatchEnv :=
  { senderUsername := "dave",
    countAt := fun i => if i = 1 then .ok 5 else .ok 6,
    gasAt := fun _ => .legacy 7 21000, submitAt := fun _ => .ok "0xh",
    notifId := fun _ => "n" }

def recipsC4 : List Recipient :=
  [⟨"0xA", "0xA", 10, false, none⟩, ⟨"0xB", "0xB", 20, false, none⟩]

def envC4W : BatchEnv :=
  { senderUsername := "erin", countAt := fun _ => .ok 9,
    gasAt := fun _ => .legacy 1 2, submitAt := fun _ => .ok "0xh2",
    notifId := fun _ => "n" }

def recipC4W : Recipient := ⟨"0xA", "0xA", 5, false, none⟩

def envC5W : BatchEnv :=
  { senderUsername := "frank", countAt := fun _ => .ok 3,
    gasAt := fun _ => .legacy 1 2,
    submitAt := fun i => if i = 2 then .error "boom" else .ok "0xh3",
    notifId := fun _ => "n" }

def recipsC5W : List Recipient :=
  [⟨"0xA", "0xA", 1, false, none⟩, ⟨"0xB", "0xB", 2, false, none⟩,
   ⟨"0xC", "0xC", 3, false, none⟩]

def recC6 : PaymentRecord :=
  { id := 1, senderId := "7", senderAddress := "0xS", recipientAddress := "0xR",
    recipientDisplay := "0xR", amountWei := 100, schedule := .oneTime 500,
    nextExecution := 500, active := true, createdAt := 0, isNewWallet := false,
    privateKey := none }

def envC6 : TickEnv :=
  { now := 500, wallets := fun _ => some ⟨"0xS", "0xk"⟩,
    balance := fun _ => 1000000, gas := .legacy 1 3, submit := fun _ => .ok "0xh6" }

def recC7 : PaymentRecord :=
  { id := 2, senderId := "8", senderAddress := "0xS", recipientAddress := "0xR",
    recipientDisplay := "0xR", amountWei := 100, schedule := .weekly 1,
    nextExecution := 400, active := true, createdAt := 0, isNewWallet := false,
    privateKey := none }

def envC7 : TickEnv :=
  { now := 450, wallets := fun _ => some ⟨"0xS", "0xk"⟩,
    balance := fun _ => 1000000, gas := .legacy 1 3,
    submit := fun _ => .error "rpc down" }

def notifC8A : PendingNotification :=
  { id := "a", ntype := "received_eth", amountWei := 5, senderUsername := "bob",
    txHash := some "0xh", newWallet := false, walletAddress := none,
    privateKey := none }

def notifC8B : PendingNotification :=
  { id := "b", ntype := "received_eth", amountWei := 6, senderUsername := "bob",
    txHash := some "0xh", newWallet := false, walletAddress := none,
    privateKey := none }

def deliverC8 : String → Bool := fun s => s == "a"

def outboxC8 : List PendingNotification := [notifC8A, notifC8B]

def recC9 : PaymentRecord :=
  { id := 3, senderId := "9", senderAddress := "0xS", recipientAddress := "0xR",
    recipientDisplay := "0xR", amountWei := 100, schedule := .periodic 0,
    nextExecution := 1000, active := true, createdAt := 0, isNewWallet := false,
    privateKey := none }

def envC9 : TickEnv :=
  { now := 1000, wallets := fun _ => some ⟨"0xS", "0xk"⟩,
    balance := fun _ => 1000000, gas := .legacy 1 3, submit := fun _ => .ok "0xh9" }

def recC9W : PaymentRecord :=
  { id := 4, senderId := "9", senderAddress := "0xS", recipientAddress := "0xR",
    recipientDisplay := "0xR", amountWei := 100, schedule := .periodic 1,
    nextExecution := 1000, active := true, createdAt := 0, isNewWallet := false,
    privateKey := none }

def envC9W : TickEnv :=
  { now := 1000, wallets := fun _ => some ⟨"0xS", "0xk"⟩,
    balance := fun _ => 1000000, gas := .legacy 1 3, submit := fun _ => .ok "0xh9w" }

def recC10 : PaymentRecord :=
  { id := 5, senderId := "9", senderAddress := "0xS", recipientAddress := "0xR",
    recipientDisplay := "0xR", amountWei := 100, schedule := .periodic 0,
    nextExecution := 900, active := true, createdAt := 0, isNewWallet := false,
    privateKey := none }

def envC10 : TickEnv :=
  { now := 950, wallets := fun _ => some ⟨"0xS", "0xk"⟩,
    balance := fun _ => 1000000, gas := .legacy 1 3, submit := fun _ => .ok "0xh10" }

/-- The cron successor is strictly later than the reference time. -/
theorem cronNext_gt (w t : Nat) : t < cronNext w t := by
  simp only [cronNext, cronWeekdayOfDay]
  split <;> omega

theorem rescheduleRecord_active (now : Nat) (s : Schedule) (x : PaymentRecord)
    (h : (rescheduleRecord now s x).active = true) : x.active = true := by
  cases s with
  | weekly w => simpa [rescheduleRecord] using h
  | periodic d => simpa [rescheduleRecord] using h
  | oneTime ts => simp [rescheduleRecord] at h

theorem rescheduleRecord_id (now : Nat) (s : Schedule) (x : PaymentRecord) :
    (rescheduleRecord now s x).id = x.id := by
  cases s <;> rfl

theorem applyUpdate_id (now : Nat) (r x : PaymentRecord) :
    (applyUpdate now r x).id = x.id := by
  unfold applyUpdate
  by_cases h : x.id = r.id
  · simp [h, rescheduleRecord_id]
  · simp [h]

theorem schedStep_id (env : TickEnv) (x r : PaymentRecord) :
    (schedStep env x r).id = x.id := by
  cases h : dispatchResult env r <;> simp [schedStep, h, applyUpdate_id]

theorem schedG_cons (env : TickEnv) (a : PaymentRecord) (l : List PaymentRecord)
    (x : PaymentRecord) : schedG env (a :: l) x = schedG env l (schedStep env x a) := rfl

theorem schedG_id (env : TickEnv) (l : List PaymentRecord) (x : PaymentRecord) :
    (schedG env l x).id = x.id := by
  induction l generalizing x with
  | nil => rfl
  | cons a rest ih => rw [schedG_cons, ih, schedStep_id]

theorem schedStep_ne (env : TickEnv) (x r : PaymentRecord) (h : x.id ≠ r.id) :
    schedStep env x r = x := by
  cases hd : dispatchResult env r <;> simp [schedStep, hd, applyUpdate, h]

theorem schedStep_skip (env : TickEnv) (x r : PaymentRecord)
    (h : r.id = x.id → dispatchResult env r = none) : schedStep env x r = x := by
  by_cases hid : x.id = r.id
  · simp [schedStep, h hid.symm]
  · exact schedStep_ne env x r hid

theorem schedG_skip (env : TickEnv) (l : List PaymentRecord) (x : PaymentRecord)
    (h : ∀ r ∈ l, r.id = x.id → dispatchResult env r = none) : schedG env l x = x := by
  induction l with
  | nil => rfl
  | cons a rest ih =>
    rw [schedG_cons, schedStep_skip env x a (h a (List.mem_cons_self a rest))]
    exact ih (fun r hr => h r (List.mem_cons_of_mem a hr))

theorem schedStep_active (env : TickEnv) (x r : PaymentRecord)
    (h : (schedStep env x r).active = true) : x.active = true := by
  cases hd : dispatchResult env r with
  | none => simpa [schedStep, hd] using h
  | some v =>
    simp only [schedStep, hd] at h
    unfold applyUpdate at h
    by_cases hid : x.id = r.id
    · rw [if_pos hid] at h
      exact rescheduleRecord_active env.now r.schedule x h
    · rwa [if_neg hid] at h

theorem schedG_active (env : TickEnv) (l : List PaymentRecord) (x : PaymentRecord)
    (h : (schedG env l x).active = true) : x.active = true := by
  induction l generalizing x with
  | nil => exact h
  | cons a rest ih =>
    rw [schedG_cons] at h
    exact schedStep_active env x a (ih (schedStep env x a) h)

theorem schedG_hit (env : TickEnv) :
    ∀ (l : List PaymentRecord) (x r : PaymentRecord),
      (l.map PaymentRecord.id).Nodup → r ∈ l → r.id = x.id →
      (dispatchResult env r).isSome = true →
      schedG env l x = rescheduleRecord env.now r.schedule x := by
  intro l
  induction l with
  | nil => intro x r _ hr; exact absurd hr (List.not_mem_nil r)
  | cons a rest ih =>
    intro x r hnd hr hid hs
    rw [List.map_cons, List.nodup_cons] at hnd
    obtain ⟨hna, hnrest⟩ := hnd
    rcases List.mem_cons.mp hr with h1 | h2
    · subst h1
      rw [schedG_cons]
      obtain ⟨v, hv⟩ := Option.isSome_iff_exists.mp hs
      have hstep : schedStep env x r = rescheduleRecord env.now r.schedule x := by
        simp [schedStep, hv, applyUpdate, hid.symm]
      rw [hstep]
      apply schedG_skip
      intro q hq hqid
      exfalso
      apply hna
      have hq2 : q.id = r.id := by
        rw [hqid, rescheduleRecord_id]
        exact hid.symm
      rw [← hq2]
      exact List.mem_map_of_mem PaymentRecord.id hq
    · rw [schedG_cons]
      have hax : x.id ≠ a.id := by
        intro he
        apply hna
        rw [← he, ← hid]
        exact List.mem_map_of_mem PaymentRecord.id h2
      rw [schedStep_ne env x a hax]
      exact ih x r hnrest h2 hid hs

theorem tickFold_fst (env : TickEnv) :
    ∀ (l : List PaymentRecord) (st : List PaymentRecord) (txs : List (Nat × String)),
      (l.foldl (tickStep env) (st, txs)).1 = st.map (schedG env l) := by
  intro l
  induction l with
  | nil =>
    intro st txs
    have h : st.map (schedG env []) = st.map id := List.map_congr_left (fun x _ => rfl)
    show st = st.map (schedG env [])
    rw [h, List.map_id]
  | cons a rest ih =>
    intro st txs
    show (List.foldl (tickStep env) (tickStep env (st, txs) a) rest).1 = _
    cases hd : dispatchResult env a with
    | none =>
      have h1 : tickStep env (st, txs) a = (st, txs) := by simp [tickStep, hd]
      rw [h1, ih]
      apply List.map_congr_left
      intro x _
      rw [schedG_cons]
      have h2 : schedStep env x a = x := by simp [schedStep, hd]
      rw [h2]
    | some v =>
      have h1 : tickStep env (st, txs) a =
          (st.map (applyUpdate env.now a), txs ++ [(a.id, v)]) := by
        simp [tickStep, hd]
      rw [h1, ih, List.map_map]
      apply List.map_congr_left
      intro x _
      simp only [Function.comp]
      rw [schedG_cons]
      have h2 : schedStep env x a = applyUpdate env.now a x := by simp [schedStep, hd]
      rw [h2]

/-- The tick rewrites the store pointwise through schedG over the due list. -/
theorem tick_store (env : TickEnv) (store : List PaymentRecord) :
    (process_scheduled_payments env store).1 =
      store.map (schedG env (get_all_due_scheduled_payments store env.now)) :=
  tickFold_fst env (get_all_due_scheduled_payments store env.now) store []

theorem tickFold_snd (env : TickEnv) :
    ∀ (l : List PaymentRecord) (st : List PaymentRecord) (txs : List (Nat × String)),
      (l.foldl (tickStep env) (st, txs)).2 =
        txs ++ l.filterMap (fun r => (dispatchResult env r).map (fun h => (r.id, h))) := by
  intro l
  induction l with
  | nil => intro st txs; simp
  | cons a rest ih =>
    intro st txs
    show (List.foldl (tickStep env) (tickStep env (st, txs) a) rest).2 = _
    cases hd : dispatchResult env a with
    | none =>
      have h1 : tickStep env (st, txs) a = (st, txs) := by simp [tickStep, hd]
      rw [h1, ih]
      simp [List.filterMap_cons, hd]
    | some v =>
      have h1 : tickStep env (st, txs) a =
          (st.map (applyUpdate env.now a), txs ++ [(a.id, v)]) := by
        simp [tickStep, hd]
      rw [h1, ih]
      simp [List.filterMap_cons, hd]

/-- The transactions a tick submits are exactly the successful dispatches of
the due records, in order. -/
theorem tick_txs (env : TickEnv) (store : List PaymentRecord) :
    (process_scheduled_payments env store).2 =
      (get_all_due_scheduled_payments store env.now).filterMap
        (fun r => (dispatchResult env r).map (fun h => (r.id, h))) := by
  have := tickFold_snd env (get_all_due_scheduled_payments store env.now) store []
  simpa using this

theorem mem_due (store : List PaymentRecord) (now : Nat) (x : PaymentRecord) :
    x ∈ get_all_due_scheduled_payments store now ↔
      x ∈ store ∧ x.active = true ∧ x.nextExecution ≤ now := by
  simp [get_all_due_scheduled_payments, List.mem_filter, and_comm]

theorem due_sub (store : List PaymentRecord) (now : Nat) (x : PaymentRecord)
    (h : x ∈ get_all_due_scheduled_payments store now) : x ∈ store :=
  ((mem_due store now x).mp h).1

theorem due_nodup_ids (store : List PaymentRecord) (now : Nat)
    (hnd : (store.map PaymentRecord.id).Nodup) :
    ((get_all_due_scheduled_payments store now).map PaymentRecord.id).Nodup :=
  hnd.sublist ((List.filter_sublist store).map PaymentRecord.id)

theorem store_id_inj (store : List PaymentRecord)
    (hnd : (store.map PaymentRecord.id).Nodup) (a b : PaymentRecord)
    (ha : a ∈ store) (hb : b ∈ store) (h : a.id = b.id) : a = b :=
  List.inj_on_of_nodup_map hnd ha hb h

theorem runBatch_results_length (env : BatchEnv) :
    ∀ (l : List Recipient) (i : Nat), (runBatch env i l).results.length = l.length := by
  intro l
  induction l with
  | nil => intro i; rfl
  | cons a rest ih => intro i; simp [runBatch, ih]

theorem runBatch_countQueries (env : BatchEnv) :
    ∀ (l : List Recipient) (i : Nat), (runBatch env i l).countQueries = l.length := by
  intro l
  induction l with
  | nil => intro i; rfl
  | cons a rest ih => intro i; simp [runBatch, ih]

theorem runBatch_results_get (env : BatchEnv) :
    ∀ (l : List Recipient) (i j : Nat) (h : j < l.length)
      (h2 : j < (runBatch env i l).results.length),
      (runBatch env i l).results.get ⟨j, h2⟩ = (batchIter env (i + j) (l.get ⟨j, h⟩)).1 := by
  intro l
  induction l with
  | nil => intro i j h; exact absurd h (by simp)
  | cons a rest ih =>
    intro i j h h2
    cases j with
    | zero => rfl
    | succ k =>
      have h3 : k < rest.length := by simpa using h
      have h4 : k < (runBatch env (i + 1) rest).results.length := by
        rw [runBatch_results_length]; exact h3
      have e1 : i + 1 + k = i + (k + 1) := by omega
      have step := ih (i + 1) k h3 h4
      rw [e1] at step
      exact step

theorem batchIter_status (env : BatchEnv) (i : Nat) (r : Recipient) :
    isSuccessStatus (batchIter env i r).1.status =
      (exOk (env.countAt i) && exOk (env.submitAt i)) := by
  cases hc : env.countAt i with
  | error e => simp [batchIter, hc, isSuccessStatus, exOk]
  | ok c =>
    cases hsub : env.submitAt i with
    | error e => simp [batchIter, hc, hsub, isSuccessStatus, exOk]
    | ok h => simp [batchIter, hc, hsub, isSuccessStatus, exOk]

theorem batchIter_display (env : BatchEnv) (i : Nat) (r : Recipient) :
    (batchIter env i r).1.recipientDisplay = r.display := by
  cases hc : env.countAt i with
  | error e => simp [batchIter, hc]
  | ok c =>
    cases hsub : env.submitAt i with
    | error e => simp [batchIter, hc, hsub]
    | ok h => simp [batchIter, hc, hsub]

theorem runBatch_tx_mem (env : BatchEnv) :
    ∀ (l : List Recipient) (i j : Nat) (h : j < l.length) (c : Nat) (s : String),
      env.countAt (i + j) = Except.ok c → env.submitAt (i + j) = Except.ok s →
      (⟨c + (i + j) - 1, (l.get ⟨j, h⟩).address, (l.get ⟨j, h⟩).amountWei,
        env.gasAt (i + j), s⟩ : SentTx) ∈ (runBatch env i l).txs := by
  intro l
  induction l with
  | nil => intro i j h; exact absurd h (by simp)
  | cons a rest ih =>
    intro i j h c s hc hsub
    cases j with
    | zero =>
      have hc0 : env.countAt i = Except.ok c := hc
      have hs0 : env.submitAt i = Except.ok s := hsub
      simp [runBatch, batchIter, hc0, hs0]
    | succ k =>
      have h3 : k < rest.length := by simpa using h
      have e1 : i + 1 + k = i + (k + 1) := by omega
      have step := ih (i + 1) k h3 c s (by rw [e1]; exact hc) (by rw [e1]; exact hsub)
      rw [e1] at step
      simp only [runBatch, List.get_cons_succ]
      exact List.mem_append_right _ step

theorem outboxFold_mem (deliverOk : String → Bool) :
    ∀ (l cur : List PendingNotification) (m : PendingNotification),
      m ∈ l.foldl (outboxStep deliverOk) cur ↔
        m ∈ cur ∧ ∀ n ∈ l, (n.ntype == "received_eth" && deliverOk n.id) = true →
          m.id ≠ n.id := by
  intro l
  induction l with
  | nil => intro cur m; simp
  | cons a rest ih =>
    intro cur m
    by_cases hc : (a.ntype == "received_eth" && deliverOk a.id) = true
    · have h1 : outboxStep deliverOk cur a = remove_pending_notification cur a.id := by
        simp [outboxStep, hc]
      rw [List.foldl_cons, h1, ih]
      simp only [remove_pending_notification, List.mem_filter, bne_iff_ne,
        List.forall_mem_cons, hc]
      constructor
      · rintro ⟨⟨hm, hne⟩, hrest⟩
        exact ⟨hm, fun _ => hne, hrest⟩
      · rintro ⟨hm, hne, hrest⟩
        exact ⟨⟨hm, hne trivial⟩, hrest⟩
    · have h1 : outboxStep deliverOk cur a = cur := by
        unfold outboxStep
        rw [if_neg hc]
      rw [List.foldl_cons, h1, ih]
      simp only [List.forall_mem_cons]
      constructor
      · rintro ⟨hm, hrest⟩
        exact ⟨hm, fun hcc => absurd hcc hc, hrest⟩
      · rintro ⟨hm, _, hrest⟩
        exact ⟨hm, hrest⟩

/-- C1: evaluation of the multi-amount batch path at its failing input.  A
username recipient with no known wallet is auto-provisioned, the funds are
submitted to the fresh address (the txs component), yet the recipient entry
carries no key and the stored notification has new_wallet true but no
private key and no wallet address — the fresh private key is discarded.  By
contrast, the same-amount batch path keeps the key on the recipient entry,
schedule_payment attaches it to the payment record, and pay attaches it to
the notification payload. -/
theorem C1_multi_batch_drops_key :
    recipC1.isNewWallet = true
    ∧ recipC1.privateKey = none
    ∧ (batch_payment_recipient none "0xfreshkey" "0xFRESH" "carol" 5000).privateKey =
        some "0xfreshkey"
    ∧ (schedule_payment_record 1 "7" "0xS" "0xFRESH" "@carol" 5000
        (Schedule.oneTime 10) 10 0 true (some "0xfreshkey")).privateKey = some "0xfreshkey"
    ∧ (pay_new_wallet_notification "n0" 5000 "bob" "0xFRESH" "0xfreshkey").privateKey =
        some "0xfreshkey"
    ∧ (process_batch_transaction envC1 [recipC1]).txs =
        [⟨5, "0xFRESH", 5000, GasParams.legacy 7 21000, "0xhash1"⟩]
    ∧ (process_batch_transaction envC1 [recipC1]).notifs =
        [("carol",
          { id := "n1", ntype := "received_eth", amountWei := 5000,
            senderUsername := "bob", txHash := some "0xhash1", newWallet := true,
            walletAddress := none, privateKey := none })] := by
  decide

/-- C2 counterexample: the parser accepts "every 0 days", and the resulting
periodic schedule evaluated at reference time tRef yields exactly tRef, not
a strictly later time; likewise the parser accepts the past date
"25-12-2020", and the resulting one-time schedule returns its stored
timestamp verbatim, which lies strictly before tRef.  Both refute the claim
that the next-execution calculation always returns a timestamp strictly
greater than the reference time. -/
theorem C2_counterexample :
    parse_schedule_string "every 0 days" tRef = some (ParseResult.periodic tRef 0)
    ∧ calculate_next_execution (Schedule.periodic 0) tRef = tRef
    ∧ decide (tRef < calculate_next_execution (Schedule.periodic 0) tRef) = false
    ∧ parse_schedule_string "25-12-2020" tRef = some (ParseResult.oneTime tsDec2020)
    ∧ tsDec2020 < tRef
    ∧ calculate_next_execution (Schedule.oneTime tsDec2020) tRef = tsDec2020
    ∧ decide (tRef < calculate_next_execution (Schedule.oneTime tsDec2020) tRef) = false := by
  decide

/-- C2 (amended): for every input the parser accepts, the next-execution
calculation at reference time t is strictly greater than t for weekly
schedules, and for periodic schedules with interval at least one day; a
one-time schedule returns its stored timestamp verbatim, which exceeds t
exactly when that stored timestamp does. -/
theorem C2_next_execution_after_reference (s : String) (now t : Nat) (pr : ParseResult)
    (hp : parse_schedule_string s now = some pr) :
    (∀ w, pr = ParseResult.weekly w →
      t < calculate_next_execution (scheduleOfParse pr) t)
    ∧ (∀ nd d, pr = ParseResult.periodic nd d → 1 ≤ d →
        t < calculate_next_execution (scheduleOfParse pr) t)
    ∧ (∀ ts, pr = ParseResult.oneTime ts →
        calculate_next_execution (scheduleOfParse pr) t = ts
        ∧ (t < ts → t < calculate_next_execution (scheduleOfParse pr) t)) := by
  refine ⟨?_, ?_, ?_⟩
  · intro w hw
    subst hw
    exact cronNext_gt w t
  · intro nd d hd h1
    subst hd
    show t < t + d * 1440
    omega
  · intro ts hts
    subst hts
    exact ⟨rfl, fun h => h⟩

/-- C2 witness: concrete parser-accepted inputs for the amended claim. -/
theorem C2_next_execution_after_reference_witness :
    0 < calculate_next_execution (scheduleOfParse (ParseResult.weekly 1)) 0
    ∧ 100 < calculate_next_execution (scheduleOfParse (ParseResult.periodic 4420 3)) 100 :=
  ⟨(C2_next_execution_after_reference "every monday" 0 0 (ParseResult.weekly 1)
      (by decide)).1 1 rfl,
   (C2_next_execution_after_reference "every 3 days" 100 100
      (ParseResult.periodic 4420 3) (by decide)).2.1 4420 3 rfl (by decide)⟩

/-- C3: the balance pre-flight accepts a request exactly when the balance
covers the sum of the amounts plus the per-transaction fee estimate times
the number of transactions (equality passes); on rejection it produces a
shortfall message stating required versus available, and the request flow
returns that error without reaching the dispatch loop, so no transaction is
issued.  Both the batch form and the single-payment form are covered. -/
theorem C3_balance_guard (B : Nat) (amounts : List Nat) (gas : GasParams) (amt : Nat)
    (env : BatchEnv) (recipients : List Recipient)
    (submit : Unit → Except String String) :
    (batch_balance_guard B amounts gas = Except.ok () ↔
      amounts.sum + feeEstimate gas * amounts.length ≤ B)
    ∧ (B < amounts.sum + feeEstimate gas * amounts.length →
        batch_balance_guard B amounts gas =
          Except.error ⟨amounts.sum + feeEstimate gas * amounts.length, B⟩)
    ∧ (pay_balance_guard B amt gas = Except.ok () ↔ amt + feeEstimate gas ≤ B)
    ∧ (B < amt + feeEstimate gas →
        pay_balance_guard B amt gas = Except.error ⟨amt + feeEstimate gas, B⟩)
    ∧ (B < (recipients.map (fun r => r.amountWei)).sum +
          feeEstimate gas * recipients.length →
        batch_payment_flow env B gas recipients =
          Except.error ⟨(recipients.map (fun r => r.amountWei)).sum +
            feeEstimate gas * recipients.length, B⟩)
    ∧ (B < amt + feeEstimate gas →
        pay_flow B amt gas submit = Except.error ⟨amt + feeEstimate gas, B⟩) := by
  have hbatch : ∀ (amts : List Nat), B < amts.sum + feeEstimate gas * amts.length →
      batch_balance_guard B amts gas =
        Except.error ⟨amts.sum + feeEstimate gas * amts.length, B⟩ := by
    intro amts h
    simp [batch_balance_guard, h]
  have hpay : B < amt + feeEstimate gas →
      pay_balance_guard B amt gas = Except.error ⟨amt + feeEstimate gas, B⟩ := by
    intro h
    simp [pay_balance_guard, h]
  refine ⟨?_, hbatch amounts, ?_, hpay, ?_, ?_⟩
  · by_cases h : B < amounts.sum + feeEstimate gas * amounts.length
    · simp [batch_balance_guard, h]
    · simp [batch_balance_guard, h]
      omega
  · by_cases h : B < amt + feeEstimate gas
    · simp [pay_balance_guard, h]
    · simp [pay_balance_guard, h]
      omega
  · intro h
    have hg := hbatch (recipients.map (fun r => r.amountWei))
      (by simpa [List.length_map] using h)
    simp [batch_payment_flow, hg, List.length_map]
  · intro h
    simp [pay_flow, hpay h]

/-- C3 witness: concrete shortfall and acceptance instances, including the
boundary case where the balance exactly equals the required total. -/
theorem C3_balance_guard_witness :
    batch_balance_guard 50 [30, 10] (GasParams.legacy 2 5) = Except.error ⟨60, 50⟩
    ∧ batch_balance_guard 60 [30, 10] (GasParams.legacy 2 5) = Except.ok ()
    ∧ pay_balance_guard 38 30 (GasParams.legacy 3 3) = Except.error ⟨39, 38⟩
    ∧ batch_payment_flow ⟨"u", fun _ => Except.ok 0, fun _ => GasParams.legacy 2 5,
        fun _ => Except.ok "h", fun _ => "n"⟩ 50 (GasParams.legacy 2 5)
        [⟨"0xA", "0xA", 30, false, none⟩, ⟨"0xB", "0xB", 10, false, none⟩] =
        Except.error ⟨60, 50⟩ := by
  refine ⟨?_, ?_, ?_, ?_⟩
  · have h := (C3_balance_guard 50 [30, 10] (GasParams.legacy 2 5) 0
      ⟨"u", fun _ => Except.ok 0, fun _ => GasParams.legacy 2 5,
        fun _ => Except.ok "h", fun _ => "n"⟩ [] (fun _ => Except.ok "h")).2.1 (by decide)
    simpa using h
  · exact (C3_balance_guard 60 [30, 10] (GasParams.legacy 2 5) 0
      ⟨"u", fun _ => Except.ok 0, fun _ => GasParams.legacy 2 5,
        fun _ => Except.ok "h", fun _ => "n"⟩ [] (fun _ => Except.ok "h")).1.mpr (by decide)
  · have h := (C3_balance_guard 38 [] (GasParams.legacy 3 3) 30
      ⟨"u", fun _ => Except.ok 0, fun _ => GasParams.legacy 3 3,
        fun _ => Except.ok "h", fun _ => "n"⟩ [] (fun _ => Except.ok "h")).2.2.2.1 (by decide)
    simpa using h
  · have h := (C3_balance_guard 50 [] (GasParams.legacy 2 5) 0
      ⟨"u", fun _ => Except.ok 0, fun _ => GasParams.legacy 2 5,
        fun _ => Except.ok "h", fun _ => "n"⟩
      [⟨"0xA", "0xA", 30, false, none⟩, ⟨"0xB", "0xB", 10, false, none⟩]
      (fun _ => Except.ok "h")).2.2.2.2.1 (by decide)
    simpa using h

/-- C4 counterexample: in a confirmed two-recipient batch where the network
transaction count moves from 5 to 6 between the two sends, the loop queries
the count twice, not once, and the second transaction carries nonce 7, not
base-nonce plus one (which would be 6).  This refutes the claim that the
count is obtained once at the start of the batch and not re-queried between
the individual sends. -/
theorem C4_counterexample :
    (process_batch_transaction envC4 recipsC4).countQueries = 2
    ∧ decide ((process_batch_transaction envC4 recipsC4).countQueries = 1) = false
    ∧ (process_batch_transaction envC4 recipsC4).txs.map SentTx.nonce = [5, 7]
    ∧ decide ((process_batch_transaction envC4 recipsC4).txs.map SentTx.nonce
        = [5, 5 + 1]) = false := by
  decide

/-- C4 (amended): the transaction count is re-queried once per send (a batch
of N recipients issues N count queries), and the nonce carried by the i-th
transaction equals the count returned by the i-th query plus i - 1; only
when every query returns the same base value does this coincide with
base-nonce plus i - 1. -/
theorem C4_nonce_per_send (env : BatchEnv) (l : List Recipient) :
    (process_batch_transaction env l).countQueries = l.length
    ∧ ∀ (j : Nat) (h : j < l.length) (c : Nat) (s : String),
        env.countAt (j + 1) = Except.ok c → env.submitAt (j + 1) = Except.ok s →
        (⟨c + j, (l.get ⟨j, h⟩).address, (l.get ⟨j, h⟩).amountWei,
          env.gasAt (j + 1), s⟩ : SentTx) ∈ (process_batch_transaction env l).txs := by
  constructor
  · exact runBatch_countQueries env l 1
  · intro j h c s hc hs
    have e1 : 1 + j = j + 1 := by omega
    have step := runBatch_tx_mem env l 1 j h c s (by rw [e1]; exact hc)
      (by rw [e1]; exact hs)
    rw [e1] at step
    have e2 : c + (j + 1) - 1 = c + j := by omega
    rw [e2] at step
    exact step

/-- C4 witness: a one-recipient batch with count 9 queried at the single
send; the submitted transaction carries nonce 9. -/
theorem C4_nonce_per_send_witness :
    (process_batch_transaction envC4W [recipC4W]).countQueries = 1
    ∧ (⟨9, "0xA", 5, GasParams.legacy 1 2, "0xh2"⟩ : SentTx) ∈
        (process_batch_transaction envC4W [recipC4W]).txs := by
  refine ⟨(C4_nonce_per_send envC4W [recipC4W]).1, ?_⟩
  have h := (C4_nonce_per_send envC4W [recipC4W]).2 0 (by decide) 9 "0xh2" rfl rfl
  simpa using h

/-- C5: a confirmed batch of N recipients always produces exactly N
per-recipient outcomes, in recipient order; the outcome of slot j depends
only on the network results of iteration j + 1, so a failure at one
recipient does not prevent any later recipient from being attempted; and
the reported summary counts satisfy successes plus failures equals N. -/
theorem C5_batch_outcomes (env : BatchEnv) (recipients : List Recipient) :
    (process_batch_transaction env recipients).results.length = recipients.length
    ∧ successCount (process_batch_transaction env recipients).results +
        failedCount (process_batch_transaction env recipients).results =
        recipients.length
    ∧ ∀ (j : Nat) (h : j < recipients.length)
        (h2 : j < (process_batch_transaction env recipients).results.length),
        isSuccessStatus
            (((process_batch_transaction env recipients).results.get ⟨j, h2⟩).status) =
          (exOk (env.countAt (j + 1)) && exOk (env.submitAt (j + 1)))
        ∧ ((process_batch_transaction env recipients).results.get
            ⟨j, h2⟩).recipientDisplay = (recipients.get ⟨j, h⟩).display := by
  have hlen : (process_batch_transaction env recipients).results.length =
      recipients.length := runBatch_results_length env recipients 1
  refine ⟨hlen, ?_, ?_⟩
  · have hle : successCount (process_batch_transaction env recipients).results ≤
        (process_batch_transaction env recipients).results.length :=
      List.length_filter_le _ _
    unfold failedCount
    omega
  · intro j h h2
    have hg := runBatch_results_get env recipients 1 j h h2
    have e1 : 1 + j = j + 1 := by omega
    rw [e1] at hg
    have hg2 : (process_batch_transaction env recipients).results.get ⟨j, h2⟩ =
        (batchIter env (j + 1) (recipients.get ⟨j, h⟩)).1 := hg
    constructor
    · rw [hg2, batchIter_status]
    · rw [hg2, batchIter_display]

/-- C5 witness: the three-recipient scenario in which only the second
submission fails reports exactly two successes and one failure, and the
failed slot is exactly the one whose own submission failed. -/
theorem C5_batch_outcomes_witness :
    (process_batch_transaction envC5W recipsC5W).results.length = 3
    ∧ successCount (process_batch_transaction envC5W recipsC5W).results = 2
    ∧ failedCount (process_batch_transaction envC5W recipsC5W).results = 1
    ∧ isSuccessStatus
        (((process_batch_transaction envC5W recipsC5W).results.get
          ⟨1, by decide⟩).status) = false
    ∧ isSuccessStatus
        (((process_batch_transaction envC5W recipsC5W).results.get
          ⟨0, by decide⟩).status) = true
    ∧ isSuccessStatus
        (((process_batch_transaction envC5W recipsC5W).results.get
          ⟨2, by decide⟩).status) = true := by
  refine ⟨(C5_batch_outcomes envC5W recipsC5W).1, by decide, by decide, ?_, by decide,
    by decide⟩
  have h := ((C5_batch_outcomes envC5W recipsC5W).2.2 1 (by decide) (by decide)).1
  rw [h]
  decide

/-- C6: a due one-time record whose dispatch succeeds is stored back
deactivated; afterwards the due scan never returns a record with its id
again, at any time and also after any further tick, so the active flag
transitions from true to false exactly once, on the terminal successful
dispatch. -/
theorem C6_one_time_terminal (env : TickEnv) (store : List PaymentRecord)
    (r : PaymentRecord) (ts : Nat)
    (hnd : (store.map PaymentRecord.id).Nodup)
    (hr : r ∈ get_all_due_scheduled_payments store env.now)
    (hsched : r.schedule = Schedule.oneTime ts)
    (hs : (dispatchResult env r).isSome = true) :
    { r with active := false } ∈ (process_scheduled_payments env store).1
    ∧ (∀ t x, x ∈ get_all_due_scheduled_payments
        (process_scheduled_payments env store).1 t → x.id ≠ r.id)
    ∧ ∀ env2 t x,
        x ∈ get_all_due_scheduled_payments
          (process_scheduled_payments env2 (process_scheduled_payments env store).1).1 t →
        x.id ≠ r.id := by
  have hrs : r ∈ store := due_sub _ _ _ hr
  have hgr := schedG_hit env (get_all_due_scheduled_payments store env.now) r r
    (due_nodup_ids store env.now hnd) hr rfl hs
  have hresched : rescheduleRecord env.now r.schedule r = { r with active := false } := by
    rw [hsched]
    simp [rescheduleRecord, hsched]
  rw [hresched] at hgr
  have key : ∀ x ∈ (process_scheduled_payments env store).1,
      x.id = r.id → x.active = false := by
    intro x hx hxid
    rw [tick_store] at hx
    obtain ⟨y, hy, hxy⟩ := List.mem_map.mp hx
    have hyid : y.id = r.id := by rw [← hxid, ← hxy, schedG_id]
    have hyr : y = r := store_id_inj store hnd y r hy hrs hyid
    rw [hyr, hgr] at hxy
    rw [← hxy]
  refine ⟨?_, ?_, ?_⟩
  · rw [tick_store]
    have hm := List.mem_map_of_mem
      (schedG env (get_all_due_scheduled_payments store env.now)) hrs
    rw [hgr] at hm
    exact hm
  · intro t x hx hxid
    have hmem := (mem_due _ t x).mp hx
    have hact := hmem.2.1
    rw [key x hmem.1 hxid] at hact
    exact Bool.false_ne_true hact
  · intro env2 t x hx hxid
    have hmem := (mem_due _ t x).mp hx
    have hx1 := hmem.1
    rw [tick_store] at hx1
    obtain ⟨y, hy, hxy⟩ := List.mem_map.mp hx1
    have hyact : y.active = true :=
      schedG_active env2 _ y (by rw [hxy]; exact hmem.2.1)
    have hyid : y.id = r.id := by rw [← hxid, ← hxy, schedG_id]
    rw [key y hy hyid] at hyact
    exact Bool.false_ne_true hyact

/-- C6 witness: a concrete due one-time record is deactivated by the tick
that dispatches it. -/
theorem C6_one_time_terminal_witness :
    { recC6 with active := false } ∈ (process_scheduled_payments envC6 [recC6]).1 :=
  (C6_one_time_terminal envC6 [recC6] recC6 500 (by decide) (by decide) rfl
    (by decide)).1

/-- C7: when the dispatch attempt for a due record fails (missing sender
wallet, insufficient-funds pre-flight, or an error raised while building,
signing or submitting), the tick leaves the record in the store completely
unchanged, and the record is returned as due again by any later scan. -/
theorem C7_failed_dispatch_frame (env : TickEnv) (store : List PaymentRecord)
    (r : PaymentRecord)
    (hnd : (store.map PaymentRecord.id).Nodup)
    (hr : r ∈ get_all_due_scheduled_payments store env.now)
    (hfail : dispatchResult env r = none) :
    r ∈ (process_scheduled_payments env store).1
    ∧ ∀ t2, env.now ≤ t2 →
        r ∈ get_all_due_scheduled_payments (process_scheduled_payments env store).1 t2 := by
  have hrs : r ∈ store := due_sub _ _ _ hr
  have hmem := (mem_due store env.now r).mp hr
  have hgr : schedG env (get_all_due_scheduled_payments store env.now) r = r := by
    apply schedG_skip
    intro q hq hqid
    have hqr : q = r := store_id_inj store hnd q r (due_sub _ _ _ hq) hrs hqid
    rw [hqr]
    exact hfail
  have hin : r ∈ (process_scheduled_payments env store).1 := by
    rw [tick_store]
    have hm := List.mem_map_of_mem
      (schedG env (get_all_due_scheduled_payments store env.now)) hrs
    rw [hgr] at hm
    exact hm
  refine ⟨hin, ?_⟩
  intro t2 ht2
  exact (mem_due _ t2 r).mpr ⟨hin, hmem.2.1, le_trans hmem.2.2 ht2⟩

/-- C7 witness: a due weekly record whose submission raises is unchanged by
the tick and still due at a later time. -/
theorem C7_failed_dispatch_frame_witness :
    recC7 ∈ (process_scheduled_payments envC7 [recC7]).1
    ∧ recC7 ∈ get_all_due_scheduled_payments
        (process_scheduled_payments envC7 [recC7]).1 600 :=
  ⟨(C7_failed_dispatch_frame envC7 [recC7] recC7 (by decide) (by decide) (by decide)).1,
   (C7_failed_dispatch_frame envC7 [recC7] recC7 (by decide) (by decide)
     (by decide)).2 600 (by decide)⟩

/-- C8: an outbox entry is removed by the drain only when it is a
received_eth event whose delivery hand-off succeeded; an entry whose
hand-off fails stays in the outbox (and is therefore seen again by the next
drain), and after a successful hand-off no entry with that id remains. -/
theorem C8_outbox_at_least_once (deliverOk : String → Bool)
    (outbox : List PendingNotification)
    (hnd : (outbox.map PendingNotification.id).Nodup) :
    ∀ n ∈ outbox,
      (¬(n.ntype = "received_eth" ∧ deliverOk n.id = true) →
        n ∈ check_pending_notifications deliverOk outbox)
      ∧ (n.ntype = "received_eth" → deliverOk n.id = true →
          ∀ m ∈ check_pending_notifications deliverOk outbox, m.id ≠ n.id) := by
  intro n hn
  constructor
  · intro hnot
    apply (outboxFold_mem deliverOk outbox outbox n).mpr
    refine ⟨hn, ?_⟩
    intro q hq hqc hid
    have hqn : q = n :=
      List.inj_on_of_nodup_map hnd hq hn hid.symm
    rw [hqn, Bool.and_eq_true, beq_iff_eq] at hqc
    exact hnot hqc
  · intro ht hd m hm
    have hchar := (outboxFold_mem deliverOk outbox outbox m).mp hm
    exact hchar.2 n hn (by rw [Bool.and_eq_true, beq_iff_eq]; exact ⟨ht, hd⟩)

/-- C8 witness: with two pending received_eth entries of which only the
first is delivered, the drain removes the delivered entry and keeps the
failed one. -/
theorem C8_outbox_at_least_once_witness :
    notifC8B ∈ check_pending_notifications deliverC8 outboxC8
    ∧ decide (notifC8A ∈ check_pending_notifications deliverC8 outboxC8) = false :=
  ⟨(C8_outbox_at_least_once deliverC8 outboxC8 (by decide) notifC8B (by decide)).1
      (by decide),
   by decide⟩

/-- C9 counterexample: a store holding one active periodic record with
interval zero.  The first tick dispatches it and writes next-execution
equal to the dispatch time, so an immediately following tick finds it due
again and issues a second transaction — the second call does not issue zero
transactions, refuting the claim that every successful dispatch advances
next-execution strictly past the dispatch time. -/
theorem C9_counterexample :
    (process_scheduled_payments envC9 [recC9]).2 = [(3, "0xh9")]
    ∧ (process_scheduled_payments envC9 [recC9]).1 =
        [{ recC9 with nextExecution := 1000 }]
    ∧ (process_scheduled_payments envC9
        (process_scheduled_payments envC9 [recC9]).1).2 = [(3, "0xh9")]
    ∧ decide ((process_scheduled_payments envC9
        (process_scheduled_payments envC9 [recC9]).1).2 = []) = false := by
  decide

/-- C9 (amended): two ticks in succession issue zero transactions on the
second call provided every due record dispatches successfully on the first
tick, every due periodic record has interval at least one day (so each
successful dispatch either deactivates the record or advances its
next-execution strictly), and no record — pending or just rescheduled —
becomes due again before the second tick. -/
theorem C9_tick_idempotent (env1 env2 : TickEnv) (store : List PaymentRecord)
    (hnd : (store.map PaymentRecord.id).Nodup)
    (hsucc : ∀ r ∈ get_all_due_scheduled_payments store env1.now,
      (dispatchResult env1 r).isSome = true)
    (hlater : env1.now ≤ env2.now)
    (hpend : ∀ r ∈ store, r.active = true → ¬(r.nextExecution ≤ env1.now) →
      env2.now < r.nextExecution)
    (hres : ∀ r ∈ get_all_due_scheduled_payments store env1.now,
      ((nextExecAfter env1.now r.schedule).all (fun v => decide (env2.now < v))) = true) :
    (process_scheduled_payments env2 (process_scheduled_payments env1 store).1).2 = [] := by
  rw [tick_txs]
  have hdue : get_all_due_scheduled_payments
      (process_scheduled_payments env1 store).1 env2.now = [] := by
    apply List.eq_nil_iff_forall_not_mem.mpr
    intro x hx
    have hmem := (mem_due _ env2.now x).mp hx
    have hx1 := hmem.1
    rw [tick_store] at hx1
    obtain ⟨y, hy, hxy⟩ := List.mem_map.mp hx1
    by_cases hydue : y ∈ get_all_due_scheduled_payments store env1.now
    · have hgy := schedG_hit env1 (get_all_due_scheduled_payments store env1.now) y y
        (due_nodup_ids store env1.now hnd) hydue rfl (hsucc y hydue)
      have hresy := hres y hydue
      cases hsch : y.schedule with
      | oneTime ts =>
        rw [hsch] at hgy
        have hact := hmem.2.1
        rw [← hxy, hgy] at hact
        simp [rescheduleRecord] at hact
      | weekly w =>
        rw [hsch] at hgy hresy
        have hlt : env2.now < cronNext w env1.now := by
          simpa [nextExecAfter] using hresy
        have hle := hmem.2.2
        rw [← hxy, hgy] at hle
        simp only [rescheduleRecord] at hle
        omega
      | periodic d =>
        rw [hsch] at hgy hresy
        have hlt : env2.now < env1.now + d * 1440 := by
          simpa [nextExecAfter] using hresy
        have hle := hmem.2.2
        rw [← hxy, hgy] at hle
        simp only [rescheduleRecord] at hle
        omega
    · have hgy : schedG env1 (get_all_due_scheduled_payments store env1.now) y = y := by
        apply schedG_skip
        intro q hq hqid
        have hqy : q = y := store_id_inj store hnd q y (due_sub _ _ _ hq) hy hqid
        rw [hqy] at hq
        exact absurd hq hydue
      have hxyy : x = y := by rw [← hxy, hgy]
      have hact : y.active = true := by rw [← hxyy]; exact hmem.2.1
      have hle : y.nextExecution ≤ env2.now := by rw [← hxyy]; exact hmem.2.2
      have hnotdue : ¬(y.nextExecution ≤ env1.now) := by
        intro hle1
        exact hydue ((mem_due store env1.now y).mpr ⟨hy, hact, hle1⟩)
      have := hpend y hy hact hnotdue
      omega
  rw [hdue]
  rfl

/-- C9 witness: one active periodic record with interval one day; two ticks
at the same instant issue a transaction only on the first call. -/
theorem C9_tick_idempotent_witness :
    (process_scheduled_payments envC9W
      (process_scheduled_payments envC9W [recC9W]).1).2 = [] :=
  C9_tick_idempotent envC9W envC9W [recC9W] (by decide) (by decide) (by decide)
    (by decide) (by decide)

/-- C10: the parser accepts "every 0 days" and produces a periodic schedule
with interval zero whose next execution equals the reference time; after a
successful dispatch of such a record the tick writes back next-execution
equal to the dispatch time itself, so the record is due again on every
subsequent scan. -/
theorem C10_interval_zero_periodic (env : TickEnv) (store : List PaymentRecord)
    (x : PaymentRecord)
    (hnd : (store.map PaymentRecord.id).Nodup)
    (hx : x ∈ get_all_due_scheduled_payments store env.now)
    (hsched : x.schedule = Schedule.periodic 0)
    (hs : (dispatchResult env x).isSome = true) :
    parse_schedule_string "every 0 days" env.now = some (ParseResult.periodic env.now 0)
    ∧ calculate_next_execution (Schedule.periodic 0) env.now = env.now
    ∧ { x with nextExecution := env.now } ∈ (process_scheduled_payments env store).1
    ∧ ∀ t, env.now ≤ t →
        { x with nextExecution := env.now } ∈
          get_all_due_scheduled_payments (process_scheduled_payments env store).1 t := by
  have hxs : x ∈ store := due_sub _ _ _ hx
  have hmem := (mem_due store env.now x).mp hx
  have hgx := schedG_hit env (get_all_due_scheduled_payments store env.now) x x
    (due_nodup_ids store env.now hnd) hx rfl hs
  rw [hsched] at hgx
  have hresched : rescheduleRecord env.now (Schedule.periodic 0) x =
      { x with nextExecution := env.now } := by
    simp [rescheduleRecord]
  rw [hresched] at hgx
  have hin : { x with nextExecution := env.now } ∈
      (process_scheduled_payments env store).1 := by
    rw [tick_store]
    have hm := List.mem_map_of_mem
      (schedG env (get_all_due_scheduled_payments store env.now)) hxs
    rw [hgx] at hm
    exact hm
  refine ⟨rfl, ?_, hin, ?_⟩
  · show env.now + 0 * 1440 = env.now
    omega
  · intro t ht
    exact (mem_due _ t _).mpr ⟨hin, hmem.2.1, ht⟩

/-- C10 witness: a concrete interval-zero record dispatched at time 950 is
stored back with next-execution 950 and is due again at the later time 2000. -/
theorem C10_interval_zero_periodic_witness :
    parse_schedule_string "every 0 days" 950 = some (ParseResult.periodic 950 0)
    ∧ { recC10 with nextExecution := 950 } ∈
        (process_scheduled_payments envC10 [recC10]).1
    ∧ { recC10 with nextExecution := 950 } ∈
        get_all_due_scheduled_payments
          (process_scheduled_payments envC10 [recC10]).1 2000 :=
  ⟨(C10_interval_zero_periodic envC10 [recC10] recC10 (by decide) (by decide) rfl
      (by decide)).1,
   (C10_interval_zero_periodic envC10 [recC10] recC10 (by decide) (by decide) rfl
      (by decide)).2.2.1,
   (C10_interval_zero_periodic envC10 [recC10] recC10 (by decide) (by decide) rfl
      (by decide)).2.2.2 2000 (by decide)⟩

end WalletBot
